import Mathlib

/-!
Verification of `learning/train_with_job_array.py`: a CLI entry point that
loads a YAML experiment description, mutates it according to CLI flags and a
job-array task id, and hands the assembled configuration to an external
experiment runner (`ray.tune`).

The embedding models Python/YAML values as the inductive `YVal`; Python dicts
are association lists (`EDict`) with Python dict semantics (first-match lookup,
in-place update of an existing key, append of a new key, deletion of a key).
Exceptions are modelled with `Except PyError`; external collaborators
(`importlib`, `os.path`, `ray`, `tune.run`, the policy manager) are fields of
an `Env` record, and observable external calls are recorded in a trace of
`Effect`s.
-/

/-- Python exceptions that `main` can raise, by kind. -/
inductive PyError where
  | keyError (k : String)
  | typeError (msg : String)
  | assertionError
  | moduleNotFoundError (m : String)
  | attributeError (a : String)
  | external (msg : String)
deriving DecidableEq

/-- YAML / Python values flowing through the script.  `pyObj` stands for an
opaque Python object (a function object, a policy class, a trainer class);
`gridSearch xs` is the value returned by `tune.grid_search(xs)`. -/
inductive YVal where
  | null
  | bool (b : Bool)
  | int (n : Int)
  | str (s : String)
  | list (xs : List YVal)
  | map (kvs : List (String × YVal))
  | gridSearch (xs : List YVal)
  | pyObj (tag : String)

/-- A Python dict with string keys, as an ordered association list. -/
abbrev EDict := List (String × YVal)

/-- `d[k]` lookup: first entry with key `k`, if any. -/
def dictGet (d : EDict) (k : String) : Option YVal :=
  match d with
  | [] => none
  | (k', v) :: rest => if k' = k then some v else dictGet rest k

/-- `d[k] = v`: replace the value at an existing key in place, or append a
fresh entry (Python dicts keep insertion order). -/
def dictSet (d : EDict) (k : String) (v : YVal) : EDict :=
  match d with
  | [] => [(k, v)]
  | (k', v') :: rest => if k' = k then (k, v) :: rest else (k', v') :: dictSet rest k v

/-- `k in d`. -/
def dictContains (d : EDict) (k : String) : Bool :=
  match d with
  | [] => false
  | (k', _) :: rest => k' = k || dictContains rest k

/-- `del d[k]`: `KeyError` when the key is absent. -/
def dictDel (d : EDict) (k : String) : Except PyError EDict :=
  if dictContains d k then .ok (d.filter (fun kv => kv.1 != k)) else .error (.keyError k)

/-- `d[k]` raising `KeyError` when absent. -/
def getItem (d : EDict) (k : String) : Except PyError YVal :=
  match dictGet d k with
  | some v => .ok v
  | none => .error (.keyError k)

/-- Require a value to be a mapping (item access on anything else is a
`TypeError` in Python). -/
def asMap : YVal → Except PyError EDict
  | .map kvs => .ok kvs
  | _ => .error (.typeError "not a dict")

/-- Require a value to be a string (for `os.path` functions). -/
def asStr : YVal → Except PyError String
  | .str s => .ok s
  | _ => .error (.typeError "not a str")

section DictLemmas

theorem dictGet_dictSet_self (d : EDict) (k : String) (v : YVal) :
    dictGet (dictSet d k v) k = some v := by
  induction d with
  | nil => simp [dictGet, dictSet]
  | cons kv rest ih =>
    obtain ⟨k', v'⟩ := kv
    by_cases h : k' = k
    · simp [dictGet, dictSet, h]
    · simp [dictGet, dictSet, h, ih]

theorem dictGet_dictSet_ne (d : EDict) (k k' : String) (v : YVal) (h : k ≠ k') :
    dictGet (dictSet d k v) k' = dictGet d k' := by
  induction d with
  | nil => simp [dictGet, dictSet, h]
  | cons kv rest ih =>
    obtain ⟨k₀, v₀⟩ := kv
    by_cases h₀ : k₀ = k
    · subst h₀
      simp [dictGet, dictSet, h]
    · simp [dictGet, dictSet, h₀, ih]

theorem dictGet_mem (d : EDict) (k : String) (v : YVal) (h : dictGet d k = some v) :
    (k, v) ∈ d := by
  induction d with
  | nil => simp [dictGet] at h
  | cons kv rest ih =>
    obtain ⟨k₀, v₀⟩ := kv
    by_cases h₀ : k₀ = k
    · subst h₀
      simp [dictGet] at h
      simp [h]
    · simp [dictGet, h₀] at h
      exact List.mem_cons_of_mem _ (ih h)

theorem dictGet_eq_none (d : EDict) (k : String)
    (h : ∀ v, (k, v) ∉ d) : dictGet d k = none := by
  induction d with
  | nil => rfl
  | cons kv rest ih =>
    obtain ⟨k₀, v₀⟩ := kv
    have hk : k₀ ≠ k := by
      intro he
      exact h v₀ (by simp [he])
    have hrest : ∀ v, (k, v) ∉ rest := fun v hv => h v (List.mem_cons_of_mem _ hv)
    simp [dictGet, hk, ih hrest]

theorem mem_eq_of_nodup (d : EDict) (k : String) (v v' : YVal)
    (hd : (d.map Prod.fst).Nodup) (h : (k, v) ∈ d) (h' : dictGet d k = some v') :
    v = v' := by
  induction d with
  | nil => simp at h
  | cons kv rest ih =>
    obtain ⟨k₀, v₀⟩ := kv
    rw [List.map_cons, List.nodup_cons] at hd
    rcases List.mem_cons.mp h with heq | hmem
    · cases heq
      simp [dictGet] at h'
      exact h'
    · have hk : k₀ ≠ k := by
        intro hkk
        subst hkk
        exact hd.1 (List.mem_map.mpr ⟨(k₀, v), hmem, rfl⟩)
      simp [dictGet, hk] at h'
      exact ih hd.2 hmem h'

theorem dictGet_filter_ne_none (d : EDict) (k : String) :
    dictGet (d.filter (fun kv => kv.1 != k)) k = none := by
  induction d with
  | nil => rfl
  | cons kv rest ih =>
    obtain ⟨k₀, v₀⟩ := kv
    by_cases h : k₀ = k
    · simp [List.filter_cons, h, ih]
    · simp [List.filter_cons, bne_iff_ne, h, dictGet, ih]

theorem dictGet_filter_ne (d : EDict) (k k' : String) (h : k' ≠ k) :
    dictGet (d.filter (fun kv => kv.1 != k)) k' = dictGet d k' := by
  induction d with
  | nil => rfl
  | cons kv rest ih =>
    obtain ⟨k₀, v₀⟩ := kv
    by_cases h₀ : k₀ = k
    · subst h₀
      have hk : ¬ k₀ = k' := fun he => h he.symm
      simp [List.filter_cons, dictGet, hk, ih]
    · simp [List.filter_cons, bne_iff_ne, h₀, dictGet, ih]

theorem dictSet_dictSet_self (d : EDict) (k : String) (v w : YVal) :
    dictSet (dictSet d k v) k w = dictSet d k w := by
  induction d with
  | nil => simp [dictSet]
  | cons kv rest ih =>
    obtain ⟨k₀, v₀⟩ := kv
    by_cases h : k₀ = k
    · simp [dictSet, h]
    · simp [dictSet, h, ih]

theorem dictContains_eq_true (d : EDict) (k : String) (v : YVal)
    (h : dictGet d k = some v) : dictContains d k = true := by
  induction d with
  | nil => simp [dictGet] at h
  | cons kv rest ih =>
    obtain ⟨k₀, v₀⟩ := kv
    by_cases h₀ : k₀ = k
    · simp [dictContains, h₀]
    · simp [dictGet, h₀] at h
      simp [dictContains, h₀, ih h]

theorem mem_imp_get_some (d : EDict) (k : String) (v : YVal) (h : (k, v) ∈ d) :
    ∃ w, dictGet d k = some w := by
  induction d with
  | nil => simp at h
  | cons kv rest ih =>
    obtain ⟨k₀, v₀⟩ := kv
    by_cases h₀ : k₀ = k
    · exact ⟨v₀, by simp [dictGet, h₀]⟩
    · rcases List.mem_cons.mp h with heq | hmem
      · cases heq
        exact absurd rfl h₀
      · obtain ⟨w, hw⟩ := ih hmem
        exact ⟨w, by simp [dictGet, h₀, hw]⟩

theorem getItem_ok (d : EDict) (k : String) (v : YVal) :
    getItem d k = .ok v ↔ dictGet d k = some v := by
  unfold getItem
  cases dictGet d k <;> simp

end DictLemmas

/-- Inverting a successful `Except` bind: the first action succeeded and the
continuation succeeded on its result. -/
theorem bind_eq_ok {α β : Type} {x : Except PyError α} {f : α → Except PyError β}
    {b : β} (h : x >>= f = .ok b) : ∃ a, x = .ok a ∧ f a = .ok b := by
  cases x with
  | error e => simp [Bind.bind, Except.bind] at h
  | ok a => exact ⟨a, rfl, by simpa [Bind.bind, Except.bind] using h⟩

/-- The CLI arguments of `parse_args` that `main` reads. -/
structure Args where
  config_file : String
  temp_dir : String
  v : Bool
  vv : Bool
  local_mode : Bool
  job_array_module : String
  job_array_task_id : Int

/-- A dynamically imported `job_array.<name>` module: it may or may not
expose the attribute `update_exp_by_task_id`. -/
structure JobArrayModule where
  update_exp_by_task_id : Option (EDict → Int → Except PyError (EDict × String))

/-- The arguments assembled for the `tune.run(...)` call. -/
structure TuneRunArgs where
  trainer : YVal
  name : String
  stop : YVal
  config : YVal
  resources_per_trial : YVal
  num_samples : YVal
  local_dir : YVal
  keep_checkpoints_num : YVal
  checkpoint_freq : YVal
  checkpoint_at_end : YVal
  verbose : Nat
  trial_name_creator : YVal
  restore : YVal

/-- Observable calls into external collaborators, in program order. -/
inductive Effect where
  | registerEnv (v : YVal)
  | registerModel (v : YVal)
  | rayInit (localMode : Bool) (tempDir : String) (numCpus numGpus : YVal)
  | tuneRun (a : TuneRunArgs)
  | rayShutdown

/-- The external world as `main` sees it: `os.path` functions, `importlib`
resolution of `job_array.<name>` modules, the policy manager's lookups,
`misc.set_callbacks`, the trainer-class registry, and the outcome of
`tune.run`. -/
structure Env where
  expanduser : String → String
  abspath : String → String
  importJobArray : String → Option JobArrayModule
  getPolicy : String → YVal
  getPolicyMappingFn : YVal → YVal
  setCallbacks : EDict → EDict
  getTrainerClass : YVal → Except PyError YVal
  tuneRun : TuneRunArgs → Except PyError YVal

/-- `experiments = misc.load_yaml(...)`; `assert len(exp_names) == 1`;
`exp = experiments[exp_names[0]]`.  The loaded top-level mapping is the
input; the step succeeds exactly when it has one entry whose value is a
mapping. -/
def loadStep (experiments : EDict) : Except PyError EDict :=
  match experiments with
  | [(_, v)] => asMap v
  | _ => .error .assertionError

/-- Modelled from the spec: `misc.get_dict_value_by_str` is not under `src/`;
the only key the script passes is the plain (undotted) key `'local_dir'`, so
it is modelled as plain dict item access. -/
def get_dict_value_by_str (exp : EDict) (k : String) : Except PyError YVal :=
  getItem exp k

/-- Modelled from the spec: `misc.set_dict_value_by_str` is not under `src/`;
modelled as plain dict item assignment (the script only passes the undotted
key `'local_dir'`). -/
def set_dict_value_by_str (exp : EDict) (k : String) (v : YVal) : EDict :=
  dictSet exp k v

/-- `path_keys = ['local_dir']`. -/
def path_keys : List String := ["local_dir"]

/-- Lines 66-70: for each path key, `path = os.path.abspath(os.path.expanduser(path))`
written back into the descriptor. -/
def pathStep (expanduser abspath : String → String) (exp : EDict) :
    Except PyError EDict :=
  path_keys.foldlM
    (fun exp k => do
      let v ← get_dict_value_by_str exp k
      let s ← asStr v
      pure (set_dict_value_by_str exp k (.str (abspath (expanduser s)))))
    exp

/-- `exp['config'][k] = v` (raises `KeyError` when `config` is absent,
`TypeError` when it is not a dict). -/
def setInConfig (exp : EDict) (k : String) (v : YVal) : Except PyError EDict := do
  let cfg ← asMap (← getItem exp "config")
  pure (dictSet exp "config" (.map (dictSet cfg k v)))

/-- Lines 71-77: `verbose = 1`; `if args.v:` set `log_level='INFO'`,
`verbose = 2`; `if args.vv:` set `log_level='DEBUG'`, `verbose = 3`.
Both `if`s run in sequence, so `-vv` overrides `-v`. -/
def verbosityStep (v vv : Bool) (exp : EDict) : Except PyError (EDict × Nat) := do
  let verbose := 1
  let (exp, verbose) ←
    if v then do
      let exp ← setInConfig exp "log_level" (.str "INFO")
      pure (exp, 2)
    else pure (exp, verbose)
  let (exp, verbose) ←
    if vv then do
      let exp ← setInConfig exp "log_level" (.str "DEBUG")
      pure (exp, 3)
    else pure (exp, verbose)
  pure (exp, verbose)

/-- Lines 78-79: `if args.local_mode: exp['config']['num_workers'] = 0`. -/
def localModeStep (local_mode : Bool) (exp : EDict) : Except PyError EDict :=
  if local_mode then setInConfig exp "num_workers" (.int 0) else pure exp

/-- Lines 82-84: import `job_array.<module>`, fetch `update_exp_by_task_id`,
call it on `(exp, task_id)`.  A missing module raises `ModuleNotFoundError`,
a missing attribute raises `AttributeError`. -/
def jobArrayStep (env : Env) (args : Args) (exp : EDict) :
    Except PyError (EDict × String) :=
  match env.importJobArray args.job_array_module with
  | none => .error (.moduleNotFoundError args.job_array_module)
  | some m =>
    match m.update_exp_by_task_id with
    | none => .error (.attributeError "update_exp_by_task_id")
    | some f => f exp args.job_array_task_id

/-- Lines 58-84: the pure configuration phase, up to and including the
task-id callback.  `exp['trial_name_creator'] = trial_name_creator` stores
the function object defined at the bottom of the script. -/
def configurePhase (env : Env) (args : Args) (experiments : EDict) :
    Except PyError (EDict × String × Nat) := do
  let exp ← loadStep experiments
  let exp := dictSet exp "trial_name_creator" (.pyObj "trial_name_creator")
  let exp ← pathStep env.expanduser env.abspath exp
  let (exp, verbose) ← verbosityStep args.v args.vv exp
  let exp ← localModeStep args.local_mode exp
  let (exp, exp_name) ← jobArrayStep env args exp
  pure (exp, exp_name, verbose)

/-- Lines 92-103: register the custom environment and model, then
`ray.init(...)` with the descriptor's resource requests; each external call
is recorded in the returned trace even when a later read fails. -/
def effectsPhase (env : Env) (args : Args) (exp : EDict) :
    Except PyError Unit × List Effect :=
  match getItem exp "env" with
  | .error e => (.error e, [])
  | .ok envRef =>
    match (do getItem (← asMap (← getItem exp "config")) "model" :
        Except PyError YVal) with
    | .error e => (.error e, [.registerEnv envRef])
    | .ok model =>
      match (do
          let rr ← asMap (← getItem exp "ray_resources")
          let c ← getItem rr "num_cpus"
          let g ← getItem rr "num_gpus"
          pure (c, g) : Except PyError (YVal × YVal)) with
      | .error e => (.error e, [.registerEnv envRef, .registerModel model])
      | .ok (c, g) =>
        (.ok (), [.registerEnv envRef, .registerModel model,
          .rayInit args.local_mode (env.abspath (env.expanduser args.temp_dir)) c g])

/-- Lines 106-109: `if 'callbacks' in exp['config'].keys():` apply
`misc.set_callbacks` (external, opaque). -/
def callbacksStep (setCallbacks : EDict → EDict) (exp : EDict) :
    Except PyError EDict := do
  let cfg ← asMap (← getItem exp "config")
  if dictContains cfg "callbacks" then pure (setCallbacks exp) else pure exp

/-- `for p_id in policy_ids:` — iterating a dict yields its keys, iterating a
list yields its elements (which must be usable as dict keys; we require
strings). -/
def iterIds : YVal → Except PyError (List String)
  | .map kvs => .ok (kvs.map Prod.fst)
  | .list xs =>
    xs.mapM (fun x =>
      match x with
      | .str s => Except.ok s
      | _ => Except.error (.typeError "unhashable or non-string policy id"))
  | _ => .error (.typeError "not iterable")

/-- Lines 112-117: read the previous `policies` collection, rebind the key to
a fresh dict, fill it with `policy_manager.get_policy(p_id)` for each id, and
replace `policy_mapping_fn` by the manager's resolution of its previous
value. -/
def multiagentStep (getPolicy : String → YVal) (getPolicyMappingFn : YVal → YVal)
    (exp : EDict) : Except PyError EDict := do
  let cfg ← asMap (← getItem exp "config")
  let ma ← asMap (← getItem cfg "multiagent")
  let policiesVal ← getItem ma "policies"
  let ids ← iterIds policiesVal
  let newPolicies := ids.foldl (fun d i => dictSet d i (getPolicy i)) []
  let ma := dictSet ma "policies" (.map newPolicies)
  let prev ← getItem ma "policy_mapping_fn"
  let ma := dictSet ma "policy_mapping_fn" (getPolicyMappingFn prev)
  let cfg := dictSet cfg "multiagent" (.map ma)
  pure (dictSet exp "config" (.map cfg))

/-- Lines 120-121: the allow-list of tunable hyperparameter keys. -/
def tune_keys : List String :=
  ["lr", "num_sgd_iter", "train_batch_size", "sgd_minibatch_size", "vf_loss_coeff",
   "vf_clip_param", "entropy_coeff", "kl_coeff", "kl_target", "clip_param"]

/-- The loop body of lines 122-124: `if k in tune_keys and isinstance(v, list):
exp['config'][k] = tune.grid_search(v)`. -/
def tuneUpd (acc : EDict) (kv : String × YVal) : EDict :=
  if kv.1 ∈ tune_keys then
    match kv.2 with
    | .list xs => dictSet acc kv.1 (.gridSearch xs)
    | _ => acc
  else acc

/-- Lines 122-124: iterate over `exp['config'].items()` (the original
entries), assigning grid-search wrappers back into the same dict. -/
def tuneKeysStep (exp : EDict) : Except PyError EDict := do
  let cfg ← asMap (← getItem exp "config")
  pure (dictSet exp "config" (.map (cfg.foldl tuneUpd cfg)))

/-- `exp[k] = None if k not in exp.keys() else exp[k]` (lines 129-133):
always assigns, with the old value when present and `None` otherwise. -/
def defaultKey (exp : EDict) (k : String) : EDict :=
  dictSet exp k
    (match dictGet exp k with
     | some v => v
     | none => .null)

/-- Lines 127-133: move `env` inside `config`, delete the top-level `env`
key, and default `restore` / `keep_checkpoints_num` / `resources_per_trial`
to `None` when absent. -/
def reshapeStep (exp : EDict) : Except PyError EDict := do
  let envRef ← getItem exp "env"
  let cfg ← asMap (← getItem exp "config")
  let exp := dictSet exp "config" (.map (dictSet cfg "env" envRef))
  let exp ← dictDel exp "env"
  let exp := defaultKey exp "restore"
  let exp := defaultKey exp "keep_checkpoints_num"
  let exp := defaultKey exp "resources_per_trial"
  pure exp

/-- Lines 139-152: read every argument of the `tune.run(...)` call from the
descriptor, in the order the call evaluates them. -/
def assembleArgs (trainer : YVal) (exp_name : String) (verbose : Nat)
    (exp : EDict) : Except PyError TuneRunArgs := do
  let stop ← getItem exp "stop"
  let config ← getItem exp "config"
  let resources_per_trial ← getItem exp "resources_per_trial"
  let num_samples ← getItem exp "num_samples"
  let local_dir ← getItem exp "local_dir"
  let keep_checkpoints_num ← getItem exp "keep_checkpoints_num"
  let checkpoint_freq ← getItem exp "checkpoint_freq"
  let checkpoint_at_end ← getItem exp "checkpoint_at_end"
  let trial_name_creator ← getItem exp "trial_name_creator"
  let restore ← getItem exp "restore"
  pure {
    trainer := trainer
    name := exp_name
    stop := stop
    config := config
    resources_per_trial := resources_per_trial
    num_samples := num_samples
    local_dir := local_dir
    keep_checkpoints_num := keep_checkpoints_num
    checkpoint_freq := checkpoint_freq
    checkpoint_at_end := checkpoint_at_end
    verbose := verbose
    trial_name_creator := trial_name_creator
    restore := restore
  }

/-- Lines 106-136: everything between `ray.init` and the `tune.run` call —
callbacks, multi-agent setup, hyperparameter grid-search expansion, the
reshape into `Experiment` format, and the trainer lookup. -/
def postPhase (env : Env) (exp : EDict) (exp_name : String) (verbose : Nat) :
    Except PyError TuneRunArgs := do
  let exp ← callbacksStep env.setCallbacks exp
  let exp ← multiagentStep env.getPolicy env.getPolicyMappingFn exp
  let exp ← tuneKeysStep exp
  let exp ← reshapeStep exp
  let run ← getItem exp "run"
  let trainer ← env.getTrainerClass run
  assembleArgs trainer exp_name verbose exp

/-- The whole of `main` (lines 58-155), given the already-parsed CLI
arguments and the mapping `misc.load_yaml` produced.  Returns the final
outcome (`.ok ()` — `main` returns `None`, and an uncaught exception
otherwise) together with the trace of external calls that happened before
the outcome was decided.  `ray.shutdown()` runs only after `tune.run`
returns without raising. -/
def runMain (env : Env) (args : Args) (experiments : EDict) :
    Except PyError Unit × List Effect :=
  match configurePhase env args experiments with
  | .error e => (.error e, [])
  | .ok (exp, exp_name, verbose) =>
    match effectsPhase env args exp with
    | (.error e, tr) => (.error e, tr)
    | (.ok (), tr) =>
      match postPhase env exp exp_name verbose with
      | .error e => (.error e, tr)
      | .ok a =>
        match env.tuneRun a with
        | .error e => (.error e, tr ++ [.tuneRun a])
        | .ok _ => (.ok (), tr ++ [.tuneRun a, .rayShutdown])

/-! Concrete example inputs, used to instantiate the universally quantified
theorems below at specific values. -/

/-- A concrete nested training-configuration mapping. -/
def cfg0 : EDict :=
  [("model", .map [("custom_model", .str "m")]),
   ("multiagent", .map
     [("policies", .map [("p0", .null), ("p1", .null)]),
      ("policy_mapping_fn", .str "shared")]),
   ("lr", .list [.int 1, .int 2]),
   ("gamma", .list [.int 9]),
   ("num_workers", .int 4)]

/-- A concrete experiment descriptor with every field the pipeline reads. -/
def exp0 : EDict :=
  [("env", .str "myenv"),
   ("run", .str "PPO"),
   ("stop", .map [("training_iteration", .int 5)]),
   ("config", .map cfg0),
   ("local_dir", .str "~/results"),
   ("num_samples", .int 1),
   ("checkpoint_freq", .int 10),
   ("checkpoint_at_end", .bool true),
   ("ray_resources", .map [("num_cpus", .int 2), ("num_gpus", .int 0)])]

/-- A concrete loaded YAML mapping with exactly one experiment. -/
def experiments0 : EDict := [("exp-A", .map exp0)]

/-- A concrete loaded YAML mapping with two experiments. -/
def experiments2 : EDict := [("exp-A", .map exp0), ("exp-B", .map exp0)]

/-- A concrete, fully cooperative external world. -/
def env0 : Env where
  expanduser := fun s =>
    if s = "~/tmp" then "/home/u/tmp"
    else if s = "~/results" then "/home/u/results"
    else s
  abspath := fun s => s
  importJobArray := fun _ =>
    some { update_exp_by_task_id := some (fun exp tid =>
      .ok (exp, "exp-A-" ++ toString tid)) }
  getPolicy := fun s => .pyObj ("policy:" ++ s)
  getPolicyMappingFn := fun _ => .pyObj "mapping_fn"
  setCallbacks := fun d => d
  getTrainerClass := fun _ => .ok (.pyObj "PPOTrainer")
  tuneRun := fun _ => .ok .null

/-- `env0` with a job-array module that cannot be imported. -/
def envNoModule : Env := { env0 with importJobArray := fun _ => none }

/-- Concrete CLI arguments: no flags set. -/
def args0 : Args where
  config_file := "cfg.yaml"
  temp_dir := "~/tmp"
  v := false
  vv := false
  local_mode := false
  job_array_module := "mod"
  job_array_task_id := 3

/-! # Claim theorems -/

theorem dictGet_defaultKey_ne (d : EDict) (k k' : String) (h : k ≠ k') :
    dictGet (defaultKey d k) k' = dictGet d k' := by
  unfold defaultKey
  exact dictGet_dictSet_ne _ _ _ _ h

/-- C1: loading succeeds only with exactly one top-level experiment name.
For every loaded mapping whose number of top-level entries is not 1, `main`
stops at the `assert len(exp_names) == 1` with an `AssertionError`: the
overall run is the assertion failure and no external call is made. -/
theorem load_requires_single_experiment (env : Env) (args : Args)
    (experiments : EDict) (h : experiments.length ≠ 1) :
    runMain env args experiments = (.error .assertionError, []) := by
  have hl : loadStep experiments = .error .assertionError := by
    match experiments with
    | [] => rfl
    | [_] => simp at h
    | _ :: _ :: _ => rfl
  simp [runMain, configurePhase, hl, Bind.bind, Except.bind]

/-- Witness for C1 at a concrete two-experiment mapping. -/
theorem load_requires_single_experiment_witness :
    experiments2.length ≠ 1 ∧
      runMain env0 args0 experiments2 = (.error .assertionError, []) :=
  ⟨by decide, load_requires_single_experiment env0 args0 experiments2 (by decide)⟩

/-- C5: after the reshape step, a descriptor that had a top-level `env`
value holds that value under the nested `config` mapping and has no
top-level `env` key any more. -/
theorem reshape_moves_env_into_config (exp cfg : EDict) (e : YVal)
    (henv : dictGet exp "env" = some e)
    (hcfg : dictGet exp "config" = some (.map cfg)) :
    ∃ exp', reshapeStep exp = .ok exp' ∧
      (∃ cfg', dictGet exp' "config" = some (.map cfg') ∧
        dictGet cfg' "env" = some e) ∧
      dictGet exp' "env" = none := by
  have hcontains :
      dictContains (dictSet exp "config" (.map (dictSet cfg "env" e))) "env" = true := by
    apply dictContains_eq_true _ _ e
    rw [dictGet_dictSet_ne _ _ _ _ (by decide)]
    exact henv
  refine ⟨defaultKey (defaultKey (defaultKey
      ((dictSet exp "config" (.map (dictSet cfg "env" e))).filter
        (fun kv => kv.1 != "env")) "restore") "keep_checkpoints_num")
      "resources_per_trial", ?_, ⟨dictSet cfg "env" e, ?_, dictGet_dictSet_self ..⟩, ?_⟩
  · simp [reshapeStep, getItem, henv, hcfg, asMap, dictDel, hcontains,
      Bind.bind, Except.bind, Pure.pure, Except.pure]
  · rw [dictGet_defaultKey_ne _ _ _ (by decide), dictGet_defaultKey_ne _ _ _ (by decide),
      dictGet_defaultKey_ne _ _ _ (by decide), dictGet_filter_ne _ _ _ (by decide),
      dictGet_dictSet_self]
  · rw [dictGet_defaultKey_ne _ _ _ (by decide), dictGet_defaultKey_ne _ _ _ (by decide),
      dictGet_defaultKey_ne _ _ _ (by decide), dictGet_filter_ne_none]

/-- Witness for C5 at the concrete descriptor `exp0`. -/
theorem reshape_moves_env_into_config_witness :
    dictGet exp0 "env" = some (.str "myenv") ∧
      dictGet exp0 "config" = some (.map cfg0) ∧
      ∃ exp', reshapeStep exp0 = .ok exp' ∧
        (∃ cfg', dictGet exp' "config" = some (.map cfg') ∧
          dictGet cfg' "env" = some (.str "myenv")) ∧
        dictGet exp' "env" = none :=
  ⟨rfl, rfl, reshape_moves_env_into_config exp0 cfg0 (.str "myenv") rfl rfl⟩

/-- C7: the path-normalization step rewrites each field listed in
`path_keys` (that is, `local_dir`, the descriptor's path-valued field) to
`abspath(expanduser(value))` and leaves every other descriptor field
unchanged. -/
theorem path_normalization (eu ab : String → String) (exp : EDict) (s : String)
    (h : dictGet exp "local_dir" = some (.str s)) :
    pathStep eu ab exp = .ok (dictSet exp "local_dir" (.str (ab (eu s)))) ∧
    dictGet (dictSet exp "local_dir" (.str (ab (eu s)))) "local_dir"
      = some (.str (ab (eu s))) ∧
    ∀ k, k ≠ "local_dir" →
      dictGet (dictSet exp "local_dir" (.str (ab (eu s)))) k = dictGet exp k := by
  refine ⟨?_, dictGet_dictSet_self .., ?_⟩
  · simp [pathStep, path_keys, List.foldlM, get_dict_value_by_str,
      set_dict_value_by_str, getItem, h, asStr, Bind.bind, Except.bind,
      Pure.pure, Except.pure]
  · intro k hk
    exact dictGet_dictSet_ne _ _ _ _ fun he => hk he.symm

/-- Witness for C7 at the concrete descriptor `exp0` with the concrete
`os.path` functions of `env0`: `~/results` becomes `/home/u/results`. -/
theorem path_normalization_witness :
    dictGet exp0 "local_dir" = some (.str "~/results") ∧
      pathStep env0.expanduser env0.abspath exp0 =
        .ok (dictSet exp0 "local_dir" (.str "/home/u/results")) :=
  ⟨rfl, by exact (path_normalization env0.expanduser env0.abspath exp0 "~/results" rfl).1⟩

theorem dictGet_defaultKey_self (d : EDict) (k : String) :
    dictGet (defaultKey d k) k = some ((dictGet d k).getD .null) := by
  unfold defaultKey
  rw [dictGet_dictSet_self]
  cases dictGet d k <;> rfl

/-- A successful reshape leaves each of the three optional keys bound to its
prior value, or to `None` when it was absent. -/
theorem reshapeStep_optional_keys (exp exp' : EDict)
    (hr : reshapeStep exp = .ok exp') :
    dictGet exp' "restore" = some ((dictGet exp "restore").getD .null) ∧
    dictGet exp' "keep_checkpoints_num" =
      some ((dictGet exp "keep_checkpoints_num").getD .null) ∧
    dictGet exp' "resources_per_trial" =
      some ((dictGet exp "resources_per_trial").getD .null) := by
  unfold reshapeStep at hr
  obtain ⟨envRef, h1, hr⟩ := bind_eq_ok hr
  obtain ⟨cfgV, h2, hr⟩ := bind_eq_ok hr
  obtain ⟨cfg, h3, hr⟩ := bind_eq_ok hr
  obtain ⟨expd, h4, hr⟩ := bind_eq_ok hr
  simp [Pure.pure, Except.pure] at hr
  subst hr
  have hdel : expd =
      (dictSet exp "config" (.map (dictSet cfg "env" envRef))).filter
        (fun kv => kv.1 != "env") := by
    unfold dictDel at h4
    split at h4
    · simpa using h4.symm
    · simp at h4
  have hbase : ∀ k : String, k ≠ "env" → k ≠ "config" →
      dictGet expd k = dictGet exp k := by
    intro k hk1 hk2
    rw [hdel, dictGet_filter_ne _ _ _ hk1,
      dictGet_dictSet_ne _ _ _ _ fun he => hk2 he.symm]
  refine ⟨?_, ?_, ?_⟩
  · rw [dictGet_defaultKey_ne _ _ _ (by decide),
      dictGet_defaultKey_ne _ _ _ (by decide), dictGet_defaultKey_self,
      hbase _ (by decide) (by decide)]
  · rw [dictGet_defaultKey_ne _ _ _ (by decide), dictGet_defaultKey_self,
      dictGet_defaultKey_ne _ _ _ (by decide), hbase _ (by decide) (by decide)]
  · rw [dictGet_defaultKey_self, dictGet_defaultKey_ne _ _ _ (by decide),
      dictGet_defaultKey_ne _ _ _ (by decide), hbase _ (by decide) (by decide)]

/-- C6: for each of `restore`, `keep_checkpoints_num`, `resources_per_trial`:
a key absent before the defaulting step reaches the `tune.run` arguments as
`None`, and a key present before it reaches them with its value unchanged. -/
theorem optional_keys_default_and_pass_through (exp exp' : EDict)
    (trainer : YVal) (nm : String) (vb : Nat) (a : TuneRunArgs)
    (hr : reshapeStep exp = .ok exp')
    (ha : assembleArgs trainer nm vb exp' = .ok a) :
    a.restore = (dictGet exp "restore").getD .null ∧
    a.keep_checkpoints_num = (dictGet exp "keep_checkpoints_num").getD .null ∧
    a.resources_per_trial = (dictGet exp "resources_per_trial").getD .null := by
  obtain ⟨hres, hkcn, hrpt⟩ := reshapeStep_optional_keys exp exp' hr
  unfold assembleArgs at ha
  obtain ⟨stop, _, ha⟩ := bind_eq_ok ha
  obtain ⟨config, _, ha⟩ := bind_eq_ok ha
  obtain ⟨rpt, hg3, ha⟩ := bind_eq_ok ha
  obtain ⟨ns, _, ha⟩ := bind_eq_ok ha
  obtain ⟨ld, _, ha⟩ := bind_eq_ok ha
  obtain ⟨kcn, hg6, ha⟩ := bind_eq_ok ha
  obtain ⟨cf, _, ha⟩ := bind_eq_ok ha
  obtain ⟨cae, _, ha⟩ := bind_eq_ok ha
  obtain ⟨tnc, _, ha⟩ := bind_eq_ok ha
  obtain ⟨res, hg10, ha⟩ := bind_eq_ok ha
  simp [Pure.pure, Except.pure] at ha
  subst ha
  rw [getItem_ok] at hg3 hg6 hg10
  rw [hrpt] at hg3
  rw [hkcn] at hg6
  rw [hres] at hg10
  exact ⟨(Option.some.inj hg10).symm, (Option.some.inj hg6).symm,
    (Option.some.inj hg3).symm⟩

/-- A descriptor for the C6 witness: `exp0` plus the `trial_name_creator`
entry the pipeline adds, with `keep_checkpoints_num` present and the other
two optional keys absent. -/
def expW : EDict :=
  dictSet (dictSet exp0 "trial_name_creator" (.pyObj "t"))
    "keep_checkpoints_num" (.int 7)

/-- Witness for C6: on `expW`, the absent `restore` reaches `tune.run` as
`None` and the present `keep_checkpoints_num` reaches it unchanged. -/
theorem optional_keys_default_and_pass_through_witness :
    ∃ exp' a, reshapeStep expW = .ok exp' ∧
      assembleArgs (.pyObj "PPOTrainer") "exp-A-3" 1 exp' = .ok a ∧
      a.restore = .null ∧ a.keep_checkpoints_num = .int 7 := by
  refine ⟨_, _, rfl, rfl, ?_, ?_⟩
  · exact (optional_keys_default_and_pass_through expW _ _ _ _ _ rfl rfl).1
  · exact (optional_keys_default_and_pass_through expW _ _ _ _ _ rfl rfl).2.1

/-- A key none of whose entries is an allow-listed list is untouched by the
hyperparameter loop. -/
theorem tuneFold_get_no_qual (rest : EDict) (acc : EDict) (k : String)
    (h : ∀ v, (k, v) ∈ rest → ¬(k ∈ tune_keys ∧ ∃ xs, v = YVal.list xs)) :
    dictGet (rest.foldl tuneUpd acc) k = dictGet acc k := by
  induction rest generalizing acc with
  | nil => rfl
  | cons kv rest ih =>
    obtain ⟨k₀, v₀⟩ := kv
    have hrest : ∀ v, (k, v) ∈ rest → ¬(k ∈ tune_keys ∧ ∃ xs, v = YVal.list xs) :=
      fun v hv => h v (List.mem_cons_of_mem _ hv)
    rw [List.foldl_cons, ih _ hrest]
    unfold tuneUpd
    by_cases hk₀ : k₀ ∈ tune_keys
    · simp only [if_pos hk₀]
      cases v₀ with
      | list xs =>
        have hk : k₀ ≠ k := by
          intro he
          subst he
          exact h (.list xs) (List.mem_cons_self _ _) ⟨hk₀, xs, rfl⟩
        exact dictGet_dictSet_ne _ _ _ _ hk
      | null => rfl
      | bool b => rfl
      | int n => rfl
      | str s => rfl
      | map kvs => rfl
      | gridSearch xs => rfl
      | pyObj t => rfl
    · simp only [if_neg hk₀]

/-- An allow-listed key holding a list ends up holding the grid-search
wrapper of exactly that list. -/
theorem tuneFold_get_qual (rest : EDict) (acc : EDict) (k : String)
    (xs : List YVal) (hnd : (rest.map Prod.fst).Nodup)
    (hmem : (k, YVal.list xs) ∈ rest) (hk : k ∈ tune_keys) :
    dictGet (rest.foldl tuneUpd acc) k = some (.gridSearch xs) := by
  induction rest generalizing acc with
  | nil => simp at hmem
  | cons kv rest ih =>
    obtain ⟨k₀, v₀⟩ := kv
    rw [List.map_cons, List.nodup_cons] at hnd
    rw [List.foldl_cons]
    rcases List.mem_cons.mp hmem with heq | hmem'
    · injection heq with h1 h2
      subst h1
      subst h2
      have hno : ∀ v, (k, v) ∈ rest → ¬(k ∈ tune_keys ∧ ∃ ys, v = YVal.list ys) := by
        intro v hv _
        exact hnd.1 (List.mem_map.mpr ⟨(k, v), hv, rfl⟩)
      rw [tuneFold_get_no_qual rest _ k hno]
      unfold tuneUpd
      simp only [if_pos hk]
      exact dictGet_dictSet_self ..
    · exact ih _ hnd.2 hmem'

/-- C2: in the hyperparameter step, every allow-listed key whose config value
is a list is replaced by `tune.grid_search` of exactly that list, and every
entry whose key is not allow-listed, or whose value is not a list, keeps its
value. -/
theorem tune_keys_grid_search (exp cfg : EDict)
    (hcfg : dictGet exp "config" = some (.map cfg))
    (hnd : (cfg.map Prod.fst).Nodup) :
    tuneKeysStep exp = .ok (dictSet exp "config" (.map (cfg.foldl tuneUpd cfg))) ∧
    (∀ k xs, k ∈ tune_keys → dictGet cfg k = some (.list xs) →
      dictGet (cfg.foldl tuneUpd cfg) k = some (.gridSearch xs)) ∧
    (∀ k, k ∉ tune_keys → dictGet (cfg.foldl tuneUpd cfg) k = dictGet cfg k) ∧
    (∀ k v, dictGet cfg k = some v → (∀ xs, v ≠ YVal.list xs) →
      dictGet (cfg.foldl tuneUpd cfg) k = some v) := by
  refine ⟨?_, ?_, ?_, ?_⟩
  · simp [tuneKeysStep, getItem, hcfg, asMap, Bind.bind, Except.bind,
      Pure.pure, Except.pure]
  · intro k xs hk hv
    exact tuneFold_get_qual cfg cfg k xs hnd (dictGet_mem _ _ _ hv) hk
  · intro k hk
    refine tuneFold_get_no_qual cfg cfg k ?_
    intro v _ hq
    exact hk hq.1
  · intro k v hv hnl
    have hno : ∀ w, (k, w) ∈ cfg → ¬(k ∈ tune_keys ∧ ∃ xs, w = YVal.list xs) := by
      intro w hw hq
      obtain ⟨_, xs, rfl⟩ := hq
      exact hnl xs (mem_eq_of_nodup cfg k _ v hnd hw hv).symm
    rw [tuneFold_get_no_qual cfg cfg k hno, hv]

/-- Witness for C2 on the concrete config `cfg0`: the allow-listed `lr` list
becomes a grid search; the non-allow-listed list `gamma` and the non-list
`num_workers` are unchanged. -/
theorem tune_keys_grid_search_witness :
    dictGet exp0 "config" = some (.map cfg0) ∧
      dictGet (cfg0.foldl tuneUpd cfg0) "lr" = some (.gridSearch [.int 1, .int 2]) ∧
      dictGet (cfg0.foldl tuneUpd cfg0) "gamma" = some (.list [.int 9]) ∧
      dictGet (cfg0.foldl tuneUpd cfg0) "num_workers" = some (.int 4) := by
  refine ⟨rfl, ?_, ?_, ?_⟩
  · exact (tune_keys_grid_search exp0 cfg0 rfl (by decide)).2.1 "lr" _ (by decide) rfl
  · exact ((tune_keys_grid_search exp0 cfg0 rfl (by decide)).2.2.1 "gamma"
      (by decide)).trans rfl
  · refine (tune_keys_grid_search exp0 cfg0 rfl (by decide)).2.2.2 "num_workers"
      (.int 4) rfl ?_
    intro xs h
    cases h

/-- Lookup in the dict built by the policy loop: every iterated id is bound
to its policy-manager resolution, and nothing else is touched. -/
theorem policyFold_get (ids : List String) (acc : EDict) (gp : String → YVal)
    (k : String) :
    dictGet (ids.foldl (fun d i => dictSet d i (gp i)) acc) k =
      if k ∈ ids then some (gp k) else dictGet acc k := by
  induction ids generalizing acc with
  | nil => simp
  | cons i ids ih =>
    rw [List.foldl_cons, ih]
    by_cases hk : k ∈ ids
    · simp [hk, List.mem_cons]
    · by_cases hik : k = i
      · subst hik
        simp [hk, dictGet_dictSet_self]
      · simp only [List.mem_cons, hk, hik, if_neg, or_self, or_false]
        exact dictGet_dictSet_ne _ _ _ _ fun he => hik he.symm

/-- C10: after the multi-agent step, `policies` is a mapping whose keys are
exactly the policy ids the field held before (each bound to the policy
manager's resolution of that id), `policy_mapping_fn` is the manager's
resolution of its previous value, and every other multiagent field is
unchanged. -/
theorem multiagent_setup (gp : String → YVal) (gpmf : YVal → YVal)
    (exp cfg ma : EDict) (pv mf : YVal) (ids : List String)
    (hcfg : dictGet exp "config" = some (.map cfg))
    (hma : dictGet cfg "multiagent" = some (.map ma))
    (hpol : dictGet ma "policies" = some pv)
    (hids : iterIds pv = .ok ids)
    (hmf : dictGet ma "policy_mapping_fn" = some mf) :
    ∃ ma', multiagentStep gp gpmf exp =
        .ok (dictSet exp "config" (.map (dictSet cfg "multiagent" (.map ma')))) ∧
      (∃ pols, dictGet ma' "policies" = some (.map pols) ∧
        ∀ k, dictGet pols k = if k ∈ ids then some (gp k) else none) ∧
      dictGet ma' "policy_mapping_fn" = some (gpmf mf) ∧
      ∀ k, k ≠ "policies" → k ≠ "policy_mapping_fn" →
        dictGet ma' k = dictGet ma k := by
  have hprev :
      dictGet (dictSet ma "policies"
        (.map (ids.foldl (fun d i => dictSet d i (gp i)) [])))
        "policy_mapping_fn" = some mf := by
    rw [dictGet_dictSet_ne _ _ _ _ (by decide)]
    exact hmf
  refine ⟨dictSet (dictSet ma "policies"
      (.map (ids.foldl (fun d i => dictSet d i (gp i)) [])))
      "policy_mapping_fn" (gpmf mf), ?_, ?_, ?_, ?_⟩
  · simp [multiagentStep, getItem, hcfg, hma, asMap, hpol, hids, hprev,
      Bind.bind, Except.bind, Pure.pure, Except.pure]
  · refine ⟨ids.foldl (fun d i => dictSet d i (gp i)) [], ?_, ?_⟩
    · rw [dictGet_dictSet_ne _ _ _ _ (by decide), dictGet_dictSet_self]
    · intro k
      rw [policyFold_get]
      rfl
  · exact dictGet_dictSet_self ..
  · intro k hk1 hk2
    rw [dictGet_dictSet_ne _ _ _ _ fun he => hk2 he.symm,
      dictGet_dictSet_ne _ _ _ _ fun he => hk1 he.symm]

/-- The multiagent mapping of the concrete descriptor `exp0`. -/
def maEx : EDict :=
  [("policies", .map [("p0", .null), ("p1", .null)]),
   ("policy_mapping_fn", .str "shared")]

/-- Witness for C10 on the concrete descriptor `exp0`, whose multiagent
field holds policy ids `p0`, `p1` and a named mapping function. -/
theorem multiagent_setup_witness :
    ∃ ma', multiagentStep env0.getPolicy env0.getPolicyMappingFn exp0 =
        .ok (dictSet exp0 "config" (.map (dictSet cfg0 "multiagent" (.map ma')))) ∧
      (∃ pols, dictGet ma' "policies" = some (.map pols) ∧
        ∀ k, dictGet pols k =
          if k ∈ ["p0", "p1"] then some (env0.getPolicy k) else none) ∧
      dictGet ma' "policy_mapping_fn" = some (env0.getPolicyMappingFn (.str "shared")) ∧
      ∀ k, k ≠ "policies" → k ≠ "policy_mapping_fn" →
        dictGet ma' k = dictGet maEx k :=
  multiagent_setup env0.getPolicy env0.getPolicyMappingFn exp0 cfg0 maEx
    (.map [("p0", .null), ("p1", .null)]) (.str "shared") ["p0", "p1"]
    rfl rfl rfl rfl rfl

/-- C8: when the job-array callback module cannot be imported, or lacks
`update_exp_by_task_id`, the callback step raises on any descriptor, and the
whole run ends in an uncaught error with no external call made. -/
theorem missing_callback_module_fatal (env : Env) (args : Args)
    (experiments : EDict)
    (h : env.importJobArray args.job_array_module = none ∨
         ∃ m, env.importJobArray args.job_array_module = some m ∧
           m.update_exp_by_task_id = none) :
    (∀ exp, ∃ e, jobArrayStep env args exp = .error e) ∧
    ∃ e, runMain env args experiments = (.error e, []) := by
  have hjob : ∀ exp, ∃ e, jobArrayStep env args exp = .error e := by
    intro exp
    unfold jobArrayStep
    rcases h with h | ⟨m, hm, hu⟩
    · exact ⟨_, by rw [h]⟩
    · exact ⟨_, by rw [hm]; simp only []; rw [hu]⟩
  refine ⟨hjob, ?_⟩
  cases hc : configurePhase env args experiments with
  | error e => exact ⟨e, by simp [runMain, hc]⟩
  | ok x =>
    exfalso
    unfold configurePhase at hc
    obtain ⟨e1, _, hc⟩ := bind_eq_ok hc
    obtain ⟨e2, _, hc⟩ := bind_eq_ok hc
    obtain ⟨p, _, hc⟩ := bind_eq_ok hc
    obtain ⟨e3, _, hc⟩ := bind_eq_ok hc
    obtain ⟨q, hq, _⟩ := bind_eq_ok hc
    obtain ⟨e, he⟩ := hjob _
    rw [he] at hq
    cases hq

/-- Witness for C8: with a world in which no job-array module resolves, the
run on the concrete inputs is a fatal error with an empty effect trace. -/
theorem missing_callback_module_fatal_witness :
    envNoModule.importJobArray args0.job_array_module = none ∧
      ∃ e, runMain envNoModule args0 experiments0 = (.error e, []) :=
  ⟨rfl, (missing_callback_module_fatal envNoModule args0 experiments0 (.inl rfl)).2⟩

/-- The register/init phase never emits the runner call or the shutdown. -/
theorem effectsPhase_trace_clean (env : Env) (args : Args) (exp : EDict) :
    Effect.rayShutdown ∉ (effectsPhase env args exp).2 ∧
      ∀ a, Effect.tuneRun a ∉ (effectsPhase env args exp).2 := by
  constructor
  · unfold effectsPhase
    repeat' split
    all_goals simp
  · intro a
    unfold effectsPhase
    repeat' split
    all_goals simp

/-- In a trace with no shutdown followed by the runner call and the shutdown,
the only shutdown position lies strictly after the runner call's position. -/
theorem shutdown_index (tr : List Effect) (a : TuneRunArgs)
    (hsh : Effect.rayShutdown ∉ tr) (i : Nat)
    (hi : (tr ++ [Effect.tuneRun a, Effect.rayShutdown])[i]? =
      some Effect.rayShutdown) :
    tr.length < i ∧
      (tr ++ [Effect.tuneRun a, Effect.rayShutdown])[tr.length]? =
        some (Effect.tuneRun a) := by
  constructor
  · by_contra hlt
    push_neg at hlt
    rcases Nat.lt_or_ge i tr.length with h | h
    · rw [List.getElem?_append_left h] at hi
      exact hsh (List.getElem?_mem hi)
    · have : i = tr.length := le_antisymm hlt h
      subst this
      rw [List.getElem?_append_right (le_refl _)] at hi
      simp at hi
  · rw [List.getElem?_append_right (le_refl _)]
    simp

/-- C9: `ray.shutdown()` never precedes the `tune.run` invocation — any
shutdown in the trace occurs strictly after a runner call — and once the
runner is invoked its outcome is propagated unchanged: a raised error
becomes the run's uncaught error (and no shutdown happens), a normal return
yields a normal exit after the shutdown. -/
theorem runner_outcome_and_shutdown_order (env : Env) (args : Args)
    (experiments : EDict) :
    (∀ i : Nat, (runMain env args experiments).2[i]? = some Effect.rayShutdown →
      ∃ j a, j < i ∧
        (runMain env args experiments).2[j]? = some (Effect.tuneRun a)) ∧
    (∀ a, Effect.tuneRun a ∈ (runMain env args experiments).2 →
      (∀ e, env.tuneRun a = .error e →
        (runMain env args experiments).1 = .error e ∧
          Effect.rayShutdown ∉ (runMain env args experiments).2) ∧
      (∀ v, env.tuneRun a = .ok v →
        (runMain env args experiments).1 = .ok () ∧
          Effect.rayShutdown ∈ (runMain env args experiments).2)) := by
  cases hc : configurePhase env args experiments with
  | error e =>
    have hrm : runMain env args experiments = (.error e, []) := by
      simp [runMain, hc]
    rw [hrm]
    constructor
    · intro i hi
      simp at hi
    · intro a ha
      simp at ha
  | ok x =>
    obtain ⟨exp, exp_name, verbose⟩ := x
    obtain ⟨hsh, htr⟩ := effectsPhase_trace_clean env args exp
    rcases heff : effectsPhase env args exp with ⟨res, tr⟩
    rw [heff] at hsh htr
    cases res with
    | error e =>
      have hrm : runMain env args experiments = (.error e, tr) := by
        simp [runMain, hc, heff]
      rw [hrm]
      constructor
      · intro i hi
        exact absurd (List.getElem?_mem hi) hsh
      · intro a ha
        exact absurd ha (htr a)
    | ok u =>
      cases u
      cases hp : postPhase env exp exp_name verbose with
      | error e =>
        have hrm : runMain env args experiments = (.error e, tr) := by
          simp [runMain, hc, heff, hp]
        rw [hrm]
        constructor
        · intro i hi
          exact absurd (List.getElem?_mem hi) hsh
        · intro a ha
          exact absurd ha (htr a)
      | ok a =>
        cases htune : env.tuneRun a with
        | error e =>
          have hrm : runMain env args experiments =
              (.error e, tr ++ [.tuneRun a]) := by
            simp [runMain, hc, heff, hp, htune]
          rw [hrm]
          constructor
          · intro i hi
            have hmem := List.getElem?_mem hi
            rcases List.mem_append.mp hmem with h | h
            · exact absurd h hsh
            · simp at h
          · intro a' ha'
            have haa : a' = a := by
              rcases List.mem_append.mp ha' with h | h
              · exact absurd h (htr a')
              · simpa using h
            subst haa
            constructor
            · intro e' he'
              rw [htune] at he'
              injection he' with h
              subst h
              constructor
              · rfl
              · intro hm
                rcases List.mem_append.mp hm with h | h
                · exact hsh h
                · simp at h
            · intro v hv
              rw [htune] at hv
              cases hv
        | ok v =>
          have hrm : runMain env args experiments =
              (.ok (), tr ++ [.tuneRun a, .rayShutdown]) := by
            simp [runMain, hc, heff, hp, htune]
          rw [hrm]
          constructor
          · intro i hi
            obtain ⟨hlt, hat⟩ := shutdown_index tr a hsh i hi
            exact ⟨tr.length, a, hlt, hat⟩
          · intro a' ha'
            have haa : a' = a := by
              rcases List.mem_append.mp ha' with h | h
              · exact absurd h (htr a')
              · rcases List.mem_cons.mp h with h | h
                · simpa using h
                · simp at h
            subst haa
            constructor
            · intro e he
              rw [htune] at he
              cases he
            · intro v' hv'
              exact ⟨rfl, by simp⟩

/-- Witness for C9: in the concrete successful run, the shutdown sits at
index 4 of the trace and the runner call strictly before it. -/
theorem runner_outcome_and_shutdown_order_witness :
    ∃ j a, j < 4 ∧
      (runMain env0 args0 experiments0).2[j]? = some (Effect.tuneRun a) :=
  (runner_outcome_and_shutdown_order env0 args0 experiments0).1 4 (by rfl)

/-- C3 counterexample: with both `-v` and `-vv` set, the INFO flag is set yet
the step leaves log level `'DEBUG'` and verbosity `3`, not `'INFO'` and `2` as
the claim requires of every combination in which `-v` is set: the second `if`
overrides the first. -/
theorem verbosity_both_flags_counterexample :
    verbosityStep true true exp0 =
      .ok (dictSet exp0 "config"
          (.map (dictSet (dictSet cfg0 "log_level" (.str "INFO"))
            "log_level" (.str "DEBUG"))), 3) ∧
      (3 : Nat) ≠ 2 ∧
      dictGet (dictSet (dictSet cfg0 "log_level" (.str "INFO"))
          "log_level" (.str "DEBUG")) "log_level" = some (.str "DEBUG") ∧
      YVal.str "DEBUG" ≠ YVal.str "INFO" :=
  ⟨rfl, by decide, rfl, by simp⟩

/-- C3 (amended): the verbosity step yields exactly three tiers, with `-vv`
taking precedence over `-v`: with neither flag the descriptor is unchanged
and verbosity is 1; with `-v` alone, log level `'INFO'` and verbosity 2;
with `-vv` (with or without `-v`), log level `'DEBUG'` and verbosity 3. -/
theorem verbosity_tiers (exp cfg : EDict)
    (h : dictGet exp "config" = some (.map cfg)) :
    verbosityStep false false exp = .ok (exp, 1) ∧
    verbosityStep true false exp =
      .ok (dictSet exp "config" (.map (dictSet cfg "log_level" (.str "INFO"))), 2) ∧
    ∀ v, ∃ cfg', verbosityStep v true exp =
      .ok (dictSet exp "config" (.map (dictSet cfg' "log_level" (.str "DEBUG"))), 3) := by
  refine ⟨?_, ?_, ?_⟩
  · simp [verbosityStep, Bind.bind, Except.bind, Pure.pure, Except.pure]
  · simp [verbosityStep, setInConfig, getItem, h, asMap, Bind.bind, Except.bind,
      Pure.pure, Except.pure]
  · intro v
    cases v
    · exact ⟨cfg, by simp [verbosityStep, setInConfig, getItem, h, asMap,
        Bind.bind, Except.bind, Pure.pure, Except.pure]⟩
    · refine ⟨dictSet cfg "log_level" (.str "INFO"), ?_⟩
      simp [verbosityStep, setInConfig, getItem, h, asMap, Bind.bind, Except.bind,
        Pure.pure, Except.pure, dictGet_dictSet_self, dictSet_dictSet_self]

/-- Witness for the amended C3 at the concrete descriptor `exp0`. -/
theorem verbosity_tiers_witness :
    dictGet exp0 "config" = some (.map cfg0) ∧
      verbosityStep false false exp0 = .ok (exp0, 1) :=
  ⟨rfl, (verbosity_tiers exp0 cfg0 rfl).1⟩

/-- C4: with the local-mode flag set, the step `exp['config']['num_workers'] = 0`
stores worker count 0 in the descriptor's config, whatever value (or no
value) the field held before. -/
theorem local_mode_forces_zero_workers (exp cfg : EDict)
    (h : dictGet exp "config" = some (.map cfg)) :
    localModeStep true exp =
        .ok (dictSet exp "config" (.map (dictSet cfg "num_workers" (.int 0)))) ∧
      dictGet (dictSet cfg "num_workers" (.int 0)) "num_workers" = some (.int 0) := by
  constructor
  · simp [localModeStep, setInConfig, getItem, h, asMap, Bind.bind, Except.bind,
      Pure.pure, Except.pure]
  · exact dictGet_dictSet_self ..

/-- Witness for C4 at the concrete descriptor `exp0` (whose config holds
`num_workers = 4` beforehand). -/
theorem local_mode_forces_zero_workers_witness :
    dictGet exp0 "config" = some (.map cfg0) ∧
      (localModeStep true exp0 =
          .ok (dictSet exp0 "config" (.map (dictSet cfg0 "num_workers" (.int 0)))) ∧
        dictGet (dictSet cfg0 "num_workers" (.int 0)) "num_workers" = some (.int 0)) :=
  ⟨rfl, local_mode_forces_zero_workers exp0 cfg0 rfl⟩
